import Mathlib

/-!
Shallow embedding of the AliExpress scraper (src/api/hello.ts).

The source file contains two variants of the same pipeline:
* a serverless `handler` (lines 5-101) that builds the search URL, scrapes a
  single page inside `page.evaluate`, filters by order count, closes the
  browser on the success path only, and returns a JSON report;
* a class `AliExpressScraper` whose `buildSearchURL` (153-167) and
  `scrapeProducts` (169-224) build the same URL, loop over up to
  `maxPages` result pages, extract and filter records per page, and close
  the browser in a `finally` block.

Browser effects (navigation, DOM queries, clicks) are modelled by explicit
environments describing what each DOM interaction would return; the pure
computation on those results is translated directly from the source.
-/

/-- The caller-supplied options object (`this.options` / the request body):
`searchTerm`, optional numeric `minPrice`, `maxPrice`, `minOrderCount`
(absent = `null`/`undefined` in JS), and `maxPages`. -/
structure SearchSpec where
  searchTerm : String
  minPrice : Option Int
  maxPrice : Option Int
  minOrderCount : Option Int
  maxPages : Nat
  deriving Repr, DecidableEq

/-- One catalog DOM element (`.product-item`) as the extraction code sees it:
each optional field is `none` when the corresponding child element (or the
`data-product-id` attribute) is missing, and otherwise carries the already
rendered `innerText` (resp. attribute value / `href`). -/
structure RawElement where
  dataProductId : Option String
  titleText : Option String
  priceText : Option String
  orderCountText : Option String
  ratingText : Option String
  linkHref : Option String
  deriving Repr, DecidableEq

/-- The record built per element (source lines 64-72 and 192-200).  Note
that in the source the `orderCount` field holds the *trimmed raw text* of
`.orders-count` (sentinel `'0'`), a string — the parsed integer is computed
separately only for filtering. -/
structure ProductRecord where
  id : String
  title : String
  price : String
  orderCount : String
  rating : String
  link : String
  scraped_at : String
  deriving Repr, DecidableEq

/-- `parseInt(s.replace(/\D/g, ''), 10) || 0` (lines 55-57 and 202): strip
every non-digit character, then read the remaining digit string as a
decimal number; the empty remainder gives `NaN`, which `|| 0` turns into
`0` (folding over no digits likewise gives `0`). -/
def parseOrderCount (s : String) : Nat :=
  (s.data.filter Char.isDigit).foldl (fun a c => 10 * a + (c.toNat - 48)) 0

/-- The spec's description of the same derivation, written independently:
strip all non-digit characters and parse the remainder as an integer via
`String.toNat?`; an empty or unparseable remainder yields `0`. -/
def specOrderCount (s : String) : Nat :=
  ((String.mk (s.data.filter Char.isDigit)).toNat?).getD 0

/-- JS `String.prototype.trim`: remove leading and trailing whitespace
(modelled directly on the character list so that it evaluates). -/
def jsTrim (s : String) : String :=
  String.mk (((s.data.dropWhile Char.isWhitespace).reverse.dropWhile
    Char.isWhitespace).reverse)

/-- Building one record from an element (lines 64-72 / 192-200).  `id`
comes from `getAttribute('data-product-id') || 'N/A'` (`||` also maps the
empty attribute value to the sentinel); the text fields use a ternary on
element presence, trimming the text, with sentinels `'N/A'` and `'0'`;
`link` uses the anchor's `href` untrimmed.  `now` stands for
`new Date().toISOString()`. -/
def extractRecord (now : String) (el : RawElement) : ProductRecord where
  id := match el.dataProductId with
        | some s => if s = "" then "N/A" else s
        | none => "N/A"
  title := (el.titleText.map jsTrim).getD "N/A"
  price := (el.priceText.map jsTrim).getD "N/A"
  orderCount := (el.orderCountText.map jsTrim).getD "0"
  rating := (el.ratingText.map jsTrim).getD "N/A"
  link := el.linkHref.getD "N/A"
  scraped_at := now

/-- The filter predicate of `scrapeProducts` (lines 201-204):
`options.minOrderCount ? orderCount >= options.minOrderCount : true`,
where `orderCount` is re-derived from the record's raw text.  JS truthiness
of a number is `≠ 0`; an absent (`null`) threshold is falsy. -/
def passesFilter (rec : ProductRecord) (spec : SearchSpec) : Bool :=
  let oc : Int := parseOrderCount rec.orderCount
  match spec.minOrderCount with
  | some m => if m = 0 then true else decide (oc ≥ m)
  | none => true

/-- One `page.evaluate` pass of `scrapeProducts` (lines 184-205): map every
`.product-item` element to a record in document order, then keep the
records passing the order-count filter. -/
def pageExtract (now : String) (items : List RawElement) (spec : SearchSpec) :
    List ProductRecord :=
  (items.map (extractRecord now)).filter (fun r => passesFilter r spec)

/-! ### Query Builder (lines 30-38 and 153-167)

`buildSearchURL` appends `SearchText = encodeURIComponent(searchTerm)` to a
`URLSearchParams`, appends `minPrice`/`maxPrice` when truthy, and serializes
with `params.toString()`.  `URLSearchParams.toString` itself
percent-encodes every name and value per `application/x-www-form-urlencoded`
(space becomes `+`, every byte outside `[A-Za-z0-9*\-._]` becomes `%XX`),
so the explicitly pre-encoded search term is encoded a second time.  The
encoders below are modelled at the Unicode-code-point level, which agrees
with the JS built-ins on ASCII strings (non-ASCII code points would be
UTF-8-expanded by the built-ins; the theorems that need exactness restrict
to ASCII). -/

def hexDigitChars : List Char :=
  ['0', '1', '2', '3', '4', '5', '6', '7', '8', '9', 'A', 'B', 'C', 'D', 'E', 'F']

/-- Upper-case hexadecimal digit for `n < 16`. -/
def hexDigit (n : Nat) : Char := hexDigitChars.getD n '0'

/-- Value of a hexadecimal digit character, accepting both cases. -/
def hexVal (c : Char) : Option Nat :=
  if 48 ≤ c.toNat ∧ c.toNat ≤ 57 then some (c.toNat - 48)
  else if 65 ≤ c.toNat ∧ c.toNat ≤ 70 then some (c.toNat - 55)
  else if 97 ≤ c.toNat ∧ c.toNat ≤ 102 then some (c.toNat - 87)
  else none

/-- `%XX` escape of a byte value. -/
def percentEscape (n : Nat) : List Char :=
  ['%', hexDigit (n / 16), hexDigit (n % 16)]

/-- Characters `encodeURIComponent` leaves unescaped:
`A-Z a-z 0-9 - _ . ! ~ * ' ( )`. -/
def isUriUnreserved (c : Char) : Bool :=
  c.isAlphanum || ['-', '_', '.', '!', '~', '*', Char.ofNat 39, '(', ')'].contains c

def encodeURIComponentChar (c : Char) : List Char :=
  if isUriUnreserved c then [c] else percentEscape c.toNat

/-- Model of JS `encodeURIComponent` (exact for ASCII input). -/
def encodeURIComponentStr (s : String) : String :=
  String.mk ((s.data.map encodeURIComponentChar).flatten)

/-- Characters the `application/x-www-form-urlencoded` serializer keeps
verbatim: `A-Z a-z 0-9 * - . _`. -/
def isFormSafe (c : Char) : Bool :=
  c.isAlphanum || ['*', '-', '.', '_'].contains c

def formUrlEncodeChar (c : Char) : List Char :=
  if c = ' ' then ['+'] else if isFormSafe c then [c] else percentEscape c.toNat

/-- Model of the `URLSearchParams.toString` escaping of one name or value
(exact for ASCII input). -/
def formUrlEncodeStr (s : String) : String :=
  String.mk ((s.data.map formUrlEncodeChar).flatten)

/-- One standard URL-query decode pass (`application/x-www-form-urlencoded`
parsing): `+` becomes a space, `%XX` with valid hex becomes the byte `XX`,
anything else passes through. -/
def formUrlDecodeList : List Char → List Char
  | [] => []
  | '+' :: cs => ' ' :: formUrlDecodeList cs
  | '%' :: c1 :: c2 :: cs =>
    (match hexVal c1, hexVal c2 with
     | some h, some l => Char.ofNat (16 * h + l) :: formUrlDecodeList cs
     | _, _ => '%' :: formUrlDecodeList (c1 :: c2 :: cs))
  | c :: cs => c :: formUrlDecodeList cs

def formUrlDecodeStr (s : String) : String :=
  String.mk (formUrlDecodeList s.data)

/-- Model of JS `decodeURIComponent` on well-formed input: `%XX` becomes
the byte `XX`, everything else (including `+`) passes through. -/
def decodeURIComponentList : List Char → List Char
  | [] => []
  | '%' :: c1 :: c2 :: cs =>
    (match hexVal c1, hexVal c2 with
     | some h, some l => Char.ofNat (16 * h + l) :: decodeURIComponentList cs
     | _, _ => '%' :: decodeURIComponentList (c1 :: c2 :: cs))
  | c :: cs => c :: decodeURIComponentList cs

def decodeURIComponentStr (s : String) : String :=
  String.mk (decodeURIComponentList s.data)

/-- The name/value pairs appended to the `URLSearchParams` (lines 32-36 /
155-164): always `SearchText` with the pre-encoded term; `minPrice` and
`maxPrice` only when truthy (`if (minPrice)` — absent or `0` appends
nothing). -/
def buildParams (spec : SearchSpec) : List (String × String) :=
  [("SearchText", encodeURIComponentStr spec.searchTerm)]
  ++ (match spec.minPrice with
      | some v => if v = 0 then [] else [("minPrice", toString v)]
      | none => [])
  ++ (match spec.maxPrice with
      | some v => if v = 0 then [] else [("maxPrice", toString v)]
      | none => [])

/-- `params.toString()`: each pair serialized as `name=value` with both
sides form-url-encoded, pairs joined by `&`. -/
def serializeParams (ps : List (String × String)) : String :=
  String.intercalate "&"
    (ps.map (fun p => formUrlEncodeStr p.1 ++ "=" ++ formUrlEncodeStr p.2))

/-- `buildSearchURL` (153-167, identical in the handler at 30-38):
`https://www.aliexpress.com/wholesale` + `?` + serialized parameters. -/
def buildSearchURL (spec : SearchSpec) : String :=
  "https://www.aliexpress.com/wholesale" ++ "?" ++ serializeParams (buildParams spec)

/-! ### Pagination Driver (`scrapeProducts`, lines 169-224)

The DOM interactions of one page cycle — the navigation/click that brought
the page up, the `page.evaluate` extraction, and the `.next-page` lookup —
are summarized by a `PageResult` per 1-based page number: `ok items hasNext`
when the cycle's extraction returns `items` and the next-page button
existence is `hasNext`, and `fail` when any awaited step of that cycle
throws.  The `catch` block only logs, the `finally` closes the browser, and
the accumulated `products` array is returned on every path. -/

inductive PageResult where
  | ok (items : List RawElement) (hasNext : Bool)
  | fail
  deriving Repr, DecidableEq

/-- What the environment (site + browser) would give the crawl: whether the
initial `page.goto`/`waitForSelector` pair succeeds, and each page cycle's
outcome. -/
structure CrawlEnv where
  navOk : Bool
  pages : Nat → PageResult

/-- Observable outcome of `scrapeProducts`: the returned `products` array,
how many `page.evaluate` extraction passes completed, and whether the
`catch` block was entered.  The function returning an outcome at all (never
throwing to its caller) models the `try`/`catch`/`finally` shape. -/
structure CrawlOutcome where
  accumulated : List ProductRecord
  passes : Nat
  failed : Bool
  deriving Repr, DecidableEq

/-- The `for (let pageNum = 1; pageNum <= maxPages; pageNum++)` loop
(183-216), recursing on `remaining = maxPages - pageNum`: extract and
filter the current page, push onto the accumulator, and continue only when
a `.next-page` button exists and `pageNum < maxPages` (i.e. `remaining`
is nonzero); otherwise `break`.  A failing cycle jumps to the `catch`. -/
def crawlSteps (pages : Nat → PageResult) (now : String) (spec : SearchSpec) :
    (remaining : Nat) → (pageNum : Nat) → (acc : List ProductRecord) → CrawlOutcome
  | 0, pageNum, acc =>
    match pages pageNum with
    | .fail => ⟨acc, 0, true⟩
    | .ok items _ => ⟨acc ++ pageExtract now items spec, 1, false⟩
  | r + 1, pageNum, acc =>
    match pages pageNum with
    | .fail => ⟨acc, 0, true⟩
    | .ok items hasNext =>
      if hasNext then
        let o := crawlSteps pages now spec r (pageNum + 1)
          (acc ++ pageExtract now items spec)
        ⟨o.accumulated, o.passes + 1, o.failed⟩
      else ⟨acc ++ pageExtract now items spec, 1, false⟩

/-- `scrapeProducts` (169-224): after `initialize` and `buildSearchURL`,
navigate and wait for `.product-item` (covered by `env.navOk`; on failure
the `catch` logs and the empty accumulator is returned), then run the page
loop starting at `pageNum = 1`.  The browser close in `finally` runs once
on every one of these paths. -/
def scrapeProducts (env : CrawlEnv) (now : String) (spec : SearchSpec) :
    CrawlOutcome :=
  if env.navOk then
    match spec.maxPages with
    | 0 => ⟨[], 0, false⟩
    | m + 1 => crawlSteps env.pages now spec m 1 []
  else ⟨[], 0, true⟩

/-! ### The serverless `handler` variant (lines 5-101)

Everything after the method check sits in one `try`: launch, `newPage`,
URL building, `goto`, one `evaluate` pass, then `await browser.close()` and
the 200 response.  The `catch` returns a 500 response — there is no
`finally`, so `browser.close()` is reached only on the all-success path. -/

structure HandlerEnv where
  launchOk : Bool
  gotoOk : Bool
  evalOk : Bool
  items : List RawElement
  deriving Repr

/-- Observable outcome of one handler run: HTTP status, how many times
`browser.close()` was executed, and the products of the 200 body. -/
structure HandlerResult where
  status : Nat
  closeCalls : Nat
  products : List ProductRecord
  deriving Repr, DecidableEq

/-- The handler's `page.evaluate` body (lines 47-74): derive the order
count, return `null` for records failing the
`options.minOrderCount && orderCount < options.minOrderCount` test, build
the record otherwise, and drop the `null`s. -/
def handlerExtract (now : String) (items : List RawElement) (spec : SearchSpec) :
    List ProductRecord :=
  (items.map (fun el =>
    let oc : Int := match el.orderCountText with
      | some t => parseOrderCount t
      | none => 0
    match spec.minOrderCount with
    | some m => if m ≠ 0 ∧ oc < m then none else some (extractRecord now el)
    | none => some (extractRecord now el))).filterMap id

/-- The handler body after the POST check (lines 20-100): any throw from
launch, navigation, or evaluation lands in the `catch`, which returns 500
without ever reaching the `browser.close()` on line 77. -/
def handlerRun (env : HandlerEnv) (now : String) (spec : SearchSpec) :
    HandlerResult :=
  if env.launchOk then
    if env.gotoOk then
      if env.evalOk then
        ⟨200, 1, handlerExtract now env.items spec⟩
      else ⟨500, 0, []⟩
    else ⟨500, 0, []⟩
  else ⟨500, 0, []⟩

/-! ## Helper lemmas -/

lemma foldl_digits_comm (l : List Char) :
    ∀ a : Nat,
      List.foldl (fun n c => n * 10 + (c.toNat - 48)) a l
        = List.foldl (fun a c => 10 * a + (c.toNat - 48)) a l := by
  induction l with
  | nil => intro a; rfl
  | cons c cs ih =>
    intro a
    simp only [List.foldl_cons]
    rw [show a * 10 + (c.toNat - 48) = 10 * a + (c.toNat - 48) by ring]
    exact ih _

lemma parseOrderCount_eq_specOrderCount (s : String) :
    parseOrderCount s = specOrderCount s := by
  unfold parseOrderCount specOrderCount
  cases h : s.data.filter Char.isDigit with
  | nil =>
    rw [show String.mk [] = "" from rfl]
    decide
  | cons c cs =>
    have hne : String.mk (c :: cs) ≠ "" := by
      intro hcon
      have hdata : (String.mk (c :: cs)).data = String.data "" := by rw [hcon]
      simp at hdata
    have hall : (String.mk (c :: cs)).all Char.isDigit = true := by
      rw [String.all_eq]
      show (c :: cs).all Char.isDigit = true
      rw [List.all_eq_true]
      intro x hx
      have hx' : x ∈ s.data.filter Char.isDigit := by rw [h]; exact hx
      exact (List.mem_filter.mp hx').2
    have hie : (String.mk (c :: cs)).isEmpty = false := by
      rw [Bool.eq_false_iff]
      intro ht
      exact hne ((String.isEmpty_iff _).mp ht)
    have hnat : (String.mk (c :: cs)).isNat = true := by
      simp [String.isNat, hall, hie]
    simp only [String.toNat?, hnat, if_true, Option.getD_some, String.foldl_eq]
    show List.foldl (fun a c => 10 * a + (c.toNat - 48)) 0 (c :: cs)
        = List.foldl (fun n x => n * 10 + (x.toNat - Char.toNat (Char.ofNat 48))) 0 (c :: cs)
    rw [show Char.toNat (Char.ofNat 48) = 48 from rfl]
    exact (foldl_digits_comm (c :: cs) 0).symm

lemma mem_buildParams (spec : SearchSpec) (nv : String × String) :
    nv ∈ buildParams spec ↔
      nv = ("SearchText", encodeURIComponentStr spec.searchTerm)
      ∨ (∃ v, spec.minPrice = some v ∧ v ≠ 0 ∧ nv = ("minPrice", toString v))
      ∨ (∃ v, spec.maxPrice = some v ∧ v ≠ 0 ∧ nv = ("maxPrice", toString v)) := by
  unfold buildParams
  rcases hm : spec.minPrice with _ | v1 <;> rcases hM : spec.maxPrice with _ | v2 <;>
    simp [hm, hM]

lemma crawlSteps_passes_le (pages : Nat → PageResult) (now : String)
    (spec : SearchSpec) :
    ∀ (r pageNum : Nat) (acc : List ProductRecord),
      (crawlSteps pages now spec r pageNum acc).passes ≤ r + 1 := by
  intro r
  induction r with
  | zero =>
    intro pageNum acc
    rw [crawlSteps]
    cases h : pages pageNum with
    | fail => simp
    | ok items hasNext => simp
  | succ n ih =>
    intro pageNum acc
    rw [crawlSteps]
    cases h : pages pageNum with
    | fail => simp
    | ok items hasNext =>
      cases hasNext with
      | false => simp
      | true =>
        simp only [if_true]
        show (crawlSteps pages now spec n (pageNum + 1)
            (acc ++ pageExtract now items spec)).passes + 1 ≤ n + 1 + 1
        exact Nat.succ_le_succ (ih _ _)

lemma crawlSteps_congr (pages pages' : Nat → PageResult) (now : String)
    (spec : SearchSpec) :
    ∀ (r pageNum : Nat) (acc : List ProductRecord),
      (∀ p, pageNum ≤ p → p ≤ pageNum + r → pages p = pages' p) →
      crawlSteps pages now spec r pageNum acc
        = crawlSteps pages' now spec r pageNum acc := by
  intro r
  induction r with
  | zero =>
    intro pageNum acc hagree
    rw [crawlSteps]
    conv_rhs => rw [crawlSteps]
    rw [hagree pageNum le_rfl (by omega)]
  | succ n ih =>
    intro pageNum acc hagree
    rw [crawlSteps]
    conv_rhs => rw [crawlSteps]
    rw [hagree pageNum le_rfl (by omega)]
    cases h : pages' pageNum with
    | fail => rfl
    | ok items hasNext =>
      cases hasNext with
      | false => rfl
      | true =>
        simp only [if_true]
        rw [ih (pageNum + 1) (acc ++ pageExtract now items spec)
          (fun p h1 h2 => hagree p (by omega) (by omega))]

lemma crawlSteps_fail_trunc (pages : Nat → PageResult) (now : String)
    (spec : SearchSpec) (items : Nat → List RawElement) (k : Nat) :
    ∀ (r pageNum : Nat) (acc : List ProductRecord),
      pageNum ≤ k → k ≤ pageNum + r →
      (∀ p, pageNum ≤ p → p < k → pages p = .ok (items p) true) →
      pages k = .fail →
      crawlSteps pages now spec r pageNum acc =
        ⟨acc ++ ((List.range (k - pageNum)).map
            (fun i => pageExtract now (items (pageNum + i)) spec)).flatten,
          k - pageNum, true⟩ := by
  intro r
  induction r with
  | zero =>
    intro pageNum acc h1 h2 hok hfail
    have hk : k = pageNum := by omega
    subst hk
    rw [crawlSteps, hfail]
    simp
  | succ n ih =>
    intro pageNum acc h1 h2 hok hfail
    by_cases hk : pageNum = k
    · subst hk
      rw [crawlSteps, hfail]
      simp
    · have hlt : pageNum < k := by omega
      rw [crawlSteps, hok pageNum le_rfl hlt]
      simp only [if_true]
      rw [ih (pageNum + 1) (acc ++ pageExtract now (items pageNum) spec)
        (by omega) (by omega) (fun p hp1 hp2 => hok p (by omega) hp2) hfail]
      have hkp : k - pageNum = (k - (pageNum + 1)) + 1 := by omega
      simp only [CrawlOutcome.mk.injEq]
      refine ⟨?_, by omega, trivial⟩
      rw [hkp, List.range_succ_eq_map]
      simp only [List.map_cons, List.flatten_cons, List.map_map, Nat.add_zero]
      rw [← List.append_assoc]
      congr 1
      congr 1
      apply List.map_congr_left
      intro i _
      simp only [Function.comp_apply]
      have harg : pageNum + Nat.succ i = pageNum + 1 + i := by omega
      rw [harg]

lemma hexVal_hexDigit (n : Nat) (h : n < 16) : hexVal (hexDigit n) = some n := by
  interval_cases n <;> decide

lemma hexDigit_toNat_lt (n : Nat) : (hexDigit n).toNat < 128 := by
  unfold hexDigit
  rcases Nat.lt_or_ge n 16 with h | h
  · interval_cases n <;> decide
  · rw [List.getD_eq_default]
    · decide
    · simpa using h

lemma percentEscape_toNat_lt (n : Nat) : ∀ x ∈ percentEscape n, x.toNat < 128 := by
  intro x hx
  unfold percentEscape at hx
  simp only [List.mem_cons, List.not_mem_nil, or_false] at hx
  rcases hx with rfl | rfl | rfl
  · decide
  · exact hexDigit_toNat_lt _
  · exact hexDigit_toNat_lt _

lemma encodeURIComponentChar_toNat_lt (c : Char) (h : c.toNat < 128) :
    ∀ x ∈ encodeURIComponentChar c, x.toNat < 128 := by
  intro x hx
  unfold encodeURIComponentChar at hx
  by_cases hu : isUriUnreserved c
  · rw [if_pos hu] at hx
    simp only [List.mem_singleton] at hx
    subst hx
    exact h
  · rw [if_neg hu] at hx
    exact percentEscape_toNat_lt _ x hx

lemma formUrlDecodeList_encChar (c : Char) (h : c.toNat < 256) (rest : List Char) :
    formUrlDecodeList (formUrlEncodeChar c ++ rest) = c :: formUrlDecodeList rest := by
  unfold formUrlEncodeChar
  by_cases hsp : c = ' '
  · subst hsp
    rfl
  · rw [if_neg hsp]
    by_cases hsafe : isFormSafe c
    · rw [if_pos hsafe]
      have h1 : c ≠ '+' := by rintro rfl; exact absurd hsafe (by decide)
      have h2 : c ≠ '%' := by rintro rfl; exact absurd hsafe (by decide)
      show formUrlDecodeList (c :: rest) = c :: formUrlDecodeList rest
      simp [formUrlDecodeList, h1, h2]
    · rw [if_neg hsafe]
      show formUrlDecodeList
          ('%' :: hexDigit (c.toNat / 16) :: hexDigit (c.toNat % 16) :: rest)
          = c :: formUrlDecodeList rest
      have e1 : hexVal (hexDigit (c.toNat / 16)) = some (c.toNat / 16) :=
        hexVal_hexDigit _ (by omega)
      have e2 : hexVal (hexDigit (c.toNat % 16)) = some (c.toNat % 16) :=
        hexVal_hexDigit _ (by omega)
      simp only [formUrlDecodeList, e1, e2]
      rw [show 16 * (c.toNat / 16) + c.toNat % 16 = c.toNat by omega,
        Char.ofNat_toNat]

lemma formUrlDecodeList_flatten_encode (l : List Char)
    (h : ∀ c ∈ l, c.toNat < 256) :
    formUrlDecodeList ((l.map formUrlEncodeChar).flatten) = l := by
  induction l with
  | nil => rfl
  | cons c cs ih =>
    simp only [List.map_cons, List.flatten_cons]
    rw [formUrlDecodeList_encChar c (h c (by simp))]
    rw [ih (fun x hx => h x (by simp [hx]))]

lemma decodeURIComponentList_encChar (c : Char) (h : c.toNat < 256)
    (rest : List Char) :
    decodeURIComponentList (encodeURIComponentChar c ++ rest)
      = c :: decodeURIComponentList rest := by
  unfold encodeURIComponentChar
  by_cases hu : isUriUnreserved c
  · rw [if_pos hu]
    have h2 : c ≠ '%' := by rintro rfl; exact absurd hu (by decide)
    show decodeURIComponentList (c :: rest) = c :: decodeURIComponentList rest
    simp [decodeURIComponentList, h2]
  · rw [if_neg hu]
    show decodeURIComponentList
        ('%' :: hexDigit (c.toNat / 16) :: hexDigit (c.toNat % 16) :: rest)
        = c :: decodeURIComponentList rest
    have e1 : hexVal (hexDigit (c.toNat / 16)) = some (c.toNat / 16) :=
      hexVal_hexDigit _ (by omega)
    have e2 : hexVal (hexDigit (c.toNat % 16)) = some (c.toNat % 16) :=
      hexVal_hexDigit _ (by omega)
    simp only [decodeURIComponentList, e1, e2]
    rw [show 16 * (c.toNat / 16) + c.toNat % 16 = c.toNat by omega,
      Char.ofNat_toNat]

lemma decodeURIComponentList_flatten_encode (l : List Char)
    (h : ∀ c ∈ l, c.toNat < 256) :
    decodeURIComponentList ((l.map encodeURIComponentChar).flatten) = l := by
  induction l with
  | nil => rfl
  | cons c cs ih =>
    simp only [List.map_cons, List.flatten_cons]
    rw [decodeURIComponentList_encChar c (h c (by simp))]
    rw [ih (fun x hx => h x (by simp [hx]))]

/-! ## Claim theorems -/

/-- C5: for every raw order-count text, the derived order count equals the
integer obtained by stripping all non-digit characters and parsing the
remainder (`specOrderCount`, written from the spec's words via
`String.toNat?`), with an empty or unparseable remainder yielding 0; in
particular `"1,234 orders" ↦ 1234`, `"" ↦ 0`, `"N/A" ↦ 0`. -/
theorem orderCount_derivation :
    (∀ s, parseOrderCount s = specOrderCount s)
    ∧ parseOrderCount "1,234 orders" = 1234
    ∧ parseOrderCount "" = 0
    ∧ parseOrderCount "N/A" = 0 :=
  ⟨parseOrderCount_eq_specOrderCount, by decide, rfl, by decide⟩

/-- C6: for every catalog element, each sub-field whose child element (or
attribute) is absent yields the documented sentinel in the extracted
record — `'N/A'` for id, title, price, rating, and link, `'0'` for the raw
order-count text — rather than null/undefined or a record-level failure. -/
theorem extract_missing_subfield_sentinels :
    ∀ (now : String) (el : RawElement),
      (el.dataProductId = none → (extractRecord now el).id = "N/A")
      ∧ (el.titleText = none → (extractRecord now el).title = "N/A")
      ∧ (el.priceText = none → (extractRecord now el).price = "N/A")
      ∧ (el.ratingText = none → (extractRecord now el).rating = "N/A")
      ∧ (el.linkHref = none → (extractRecord now el).link = "N/A")
      ∧ (el.orderCountText = none → (extractRecord now el).orderCount = "0") := by
  intro now el
  refine ⟨?_, ?_, ?_, ?_, ?_, ?_⟩ <;> intro h <;> simp [extractRecord, h]

theorem extract_missing_subfield_sentinels_witness :
    (extractRecord "2024-01-01T00:00:00.000Z" ⟨none, none, none, none, none, none⟩).id = "N/A"
    ∧ (extractRecord "2024-01-01T00:00:00.000Z" ⟨none, none, none, none, none, none⟩).title = "N/A"
    ∧ (extractRecord "2024-01-01T00:00:00.000Z" ⟨none, none, none, none, none, none⟩).price = "N/A"
    ∧ (extractRecord "2024-01-01T00:00:00.000Z" ⟨none, none, none, none, none, none⟩).rating = "N/A"
    ∧ (extractRecord "2024-01-01T00:00:00.000Z" ⟨none, none, none, none, none, none⟩).link = "N/A"
    ∧ (extractRecord "2024-01-01T00:00:00.000Z" ⟨none, none, none, none, none, none⟩).orderCount = "0" := by
  have h := extract_missing_subfield_sentinels "2024-01-01T00:00:00.000Z"
    ⟨none, none, none, none, none, none⟩
  exact ⟨h.1 rfl, h.2.1 rfl, h.2.2.1 rfl, h.2.2.2.1 rfl, h.2.2.2.2.1 rfl, h.2.2.2.2.2 rfl⟩

/-- C1: a record passes the Filter Engine iff `minOrderCount` is absent or
the record's derived order count is at least the threshold (the JS
truthiness test on a present threshold `0` passes everything, which agrees
with the claim because the derived count is never negative); and every
record in a page's extracted output passed the filter. -/
theorem filter_minOrderCount :
    ∀ (spec : SearchSpec) (rec : ProductRecord),
      (passesFilter rec spec = true ↔
        spec.minOrderCount = none
        ∨ ∃ m, spec.minOrderCount = some m
            ∧ (parseOrderCount rec.orderCount : Int) ≥ m)
      ∧ ∀ (now : String) (items : List RawElement) (r : ProductRecord),
          r ∈ pageExtract now items spec → passesFilter r spec = true := by
  intro spec rec
  constructor
  · unfold passesFilter
    rcases hm : spec.minOrderCount with _ | m
    · simp
    · by_cases h0 : m = 0
      · subst h0
        simp only [if_true, reduceIte, true_iff]
        exact Or.inr ⟨0, rfl, Int.natCast_nonneg _⟩
      · simp [h0, decide_eq_true_eq]
  · intro now items r hr
    exact (List.mem_filter.mp hr).2

theorem filter_minOrderCount_witness :
    passesFilter ⟨"p1", "T", "$5", "60 orders", "4.5", "u", "t"⟩
        ⟨"smartphone", some 100, some 500, some 50, 3⟩ = true
    ∧ passesFilter ⟨"p1", "T", "$5", "60 orders", "4.5", "u", "t"⟩
        ⟨"smartphone", some 100, some 500, some 50, 3⟩ = true := by
  constructor
  · exact (filter_minOrderCount ⟨"smartphone", some 100, some 500, some 50, 3⟩
      ⟨"p1", "T", "$5", "60 orders", "4.5", "u", "t"⟩).1.mpr
      (Or.inr ⟨50, rfl, by decide⟩)
  · exact (filter_minOrderCount ⟨"smartphone", some 100, some 500, some 50, 3⟩
      ⟨"p1", "T", "$5", "60 orders", "4.5", "u", "t"⟩).2 "t"
      [⟨some "p1", some "T", some "$5", some "60 orders", some "4.5", some "u"⟩]
      ⟨"p1", "T", "$5", "60 orders", "4.5", "u", "t"⟩ (by decide)

/-- C9 fails on the code: the `orderCount` field of an emitted record is
the raw trimmed order-count text, not the derived non-negative integer —
for the element whose `.orders-count` text is `"1,234 orders"` the record
field equals that raw text and differs from the numeral of the derived
count `1234`. -/
theorem orderCount_field_is_raw_text :
    (extractRecord "t"
        ⟨some "p1", some "T", some "$5", some "1,234 orders", some "4.5", some "u"⟩).orderCount
      = "1,234 orders"
    ∧ parseOrderCount "1,234 orders" = 1234
    ∧ (extractRecord "t"
        ⟨some "p1", some "T", some "$5", some "1,234 orders", some "4.5", some "u"⟩).orderCount
      ≠ "1234" :=
  ⟨by decide, by decide, by decide⟩

/-- C9 amended: every record emitted by a page's extraction pass comes from
some catalog element, its `orderCount` field holds that element's raw
trimmed order-count text (sentinel `'0'` when absent), and the
non-negative integer derived from that text was used by the filter the
record passed; the derived integer itself is not stored in the record. -/
theorem orderCount_field_raw_from_element :
    ∀ (now : String) (spec : SearchSpec) (items : List RawElement)
      (r : ProductRecord),
      r ∈ pageExtract now items spec →
      ∃ el ∈ items, r = extractRecord now el
        ∧ r.orderCount = (el.orderCountText.map jsTrim).getD "0"
        ∧ passesFilter r spec = true := by
  intro now spec items r hr
  unfold pageExtract at hr
  obtain ⟨hm, hp⟩ := List.mem_filter.mp hr
  obtain ⟨el, hel, heq⟩ := List.mem_map.mp hm
  exact ⟨el, hel, heq.symm, by rw [← heq]; rfl, hp⟩

theorem orderCount_field_raw_from_element_witness :
    ∃ el ∈ [(⟨some "p1", some "T", some "$5", some "1,234 orders", some "4.5",
        some "u"⟩ : RawElement)],
      (⟨"p1", "T", "$5", "1,234 orders", "4.5", "u", "t"⟩ : ProductRecord)
          = extractRecord "t" el
        ∧ (⟨"p1", "T", "$5", "1,234 orders", "4.5", "u", "t"⟩ : ProductRecord).orderCount
          = (el.orderCountText.map jsTrim).getD "0"
        ∧ passesFilter ⟨"p1", "T", "$5", "1,234 orders", "4.5", "u", "t"⟩
            ⟨"smartphone", none, none, none, 3⟩ = true :=
  orderCount_field_raw_from_element "t" ⟨"smartphone", none, none, none, 3⟩
    [⟨some "p1", some "T", some "$5", some "1,234 orders", some "4.5", some "u"⟩]
    ⟨"p1", "T", "$5", "1,234 orders", "4.5", "u", "t"⟩ (by decide)

/-- C4 is the claim's intent but the code violates it in the `handler`
variant: when navigation fails (`gotoOk = false`), the `catch` returns a
500 response and `browser.close()` on line 77 is never executed — the
close count is 0, not 1, so the session leaks on that exit path.  On the
all-success path close runs exactly once. -/
theorem handler_close_skipped_on_failure :
    handlerRun ⟨true, false, true, []⟩ "t" ⟨"smartphone", some 100, some 500, some 50, 3⟩
      = ⟨500, 0, []⟩
    ∧ (handlerRun ⟨true, true, true, []⟩ "t"
        ⟨"smartphone", some 100, some 500, some 50, 3⟩).closeCalls = 1 :=
  ⟨rfl, rfl⟩

/-- C7: the Query Builder is a pure function of the spec (it is modelled as
a Lean function, hence deterministic), and the parameter list underlying
the built URL contains a `minPrice` (resp. `maxPrice`) entry only when
that field is present in the spec; when the field is absent no parameter
— empty or otherwise — is emitted for it. -/
theorem queryBuilder_price_params_only_when_present :
    ∀ (spec : SearchSpec),
      ((∃ v, ("minPrice", v) ∈ buildParams spec) → spec.minPrice.isSome)
      ∧ (spec.minPrice = none → ∀ v, ("minPrice", v) ∉ buildParams spec)
      ∧ ((∃ v, ("maxPrice", v) ∈ buildParams spec) → spec.maxPrice.isSome)
      ∧ (spec.maxPrice = none → ∀ v, ("maxPrice", v) ∉ buildParams spec) := by
  intro spec
  refine ⟨?_, ?_, ?_, ?_⟩
  · rintro ⟨v, hv⟩
    rcases (mem_buildParams spec _).mp hv with h | ⟨w, hw, -, -⟩ | ⟨w, hw, -, hbad⟩
    · exact absurd (congrArg Prod.fst h) (by simp)
    · simp [hw]
    · exact absurd (congrArg Prod.fst hbad) (by simp)
  · intro hnone v hv
    rcases (mem_buildParams spec _).mp hv with h | ⟨w, hw, -, -⟩ | ⟨w, hw, -, hbad⟩
    · exact absurd (congrArg Prod.fst h) (by simp)
    · rw [hnone] at hw; exact Option.noConfusion hw
    · exact absurd (congrArg Prod.fst hbad) (by simp)
  · rintro ⟨v, hv⟩
    rcases (mem_buildParams spec _).mp hv with h | ⟨w, hw, -, hbad⟩ | ⟨w, hw, -, -⟩
    · exact absurd (congrArg Prod.fst h) (by simp)
    · exact absurd (congrArg Prod.fst hbad) (by simp)
    · simp [hw]
  · intro hnone v hv
    rcases (mem_buildParams spec _).mp hv with h | ⟨w, hw, -, hbad⟩ | ⟨w, hw, -, -⟩
    · exact absurd (congrArg Prod.fst h) (by simp)
    · exact absurd (congrArg Prod.fst hbad) (by simp)
    · rw [hnone] at hw; exact Option.noConfusion hw

theorem queryBuilder_price_params_only_when_present_witness :
    ("minPrice", "100") ∉ buildParams ⟨"smartphone", none, none, some 50, 3⟩ :=
  (queryBuilder_price_params_only_when_present
    ⟨"smartphone", none, none, some 50, 3⟩).2.1 rfl "100"

/-- C2: a run with `maxPages = N` performs at most `N` extraction passes.
The loop visits pages `1, 2, …` consecutively, the `i`-th completed pass
reading page `i`, so `passes ≤ N` is exactly "the current page number
never exceeds `N`"; the second conjunct makes this behavioral — the
outcome only depends on pages `1..N`, i.e. the driver never consults a
page past `maxPages`.  Termination (at `maxPages`, at a missing next-page
control, or at a failure) is witnessed by `scrapeProducts` being a total
function defined by recursion on the remaining page budget. -/
theorem pagination_bounded_by_maxPages :
    ∀ (env : CrawlEnv) (now : String) (spec : SearchSpec),
      (scrapeProducts env now spec).passes ≤ spec.maxPages
      ∧ ∀ (env' : CrawlEnv), env'.navOk = env.navOk →
          (∀ p, 1 ≤ p → p ≤ spec.maxPages → env'.pages p = env.pages p) →
          scrapeProducts env' now spec = scrapeProducts env now spec := by
  intro env now spec
  constructor
  · unfold scrapeProducts
    cases hn : env.navOk with
    | false => simp
    | true =>
      simp only [if_true]
      cases hmp : spec.maxPages with
      | zero => simp
      | succ m => exact crawlSteps_passes_le env.pages now spec m 1 []
  · intro env' h1 h2
    unfold scrapeProducts
    rw [h1]
    cases hn : env.navOk with
    | false => rfl
    | true =>
      simp only [if_true]
      cases hmp : spec.maxPages with
      | zero => rfl
      | succ m =>
        exact crawlSteps_congr env'.pages env.pages now spec m 1 []
          (fun p hp1 hp2 => h2 p hp1 (by omega))

theorem pagination_bounded_by_maxPages_witness :
    (scrapeProducts ⟨true, fun _ => .ok [] true⟩ "t" ⟨"s", none, none, none, 3⟩).passes ≤ 3
    ∧ scrapeProducts ⟨true, fun p => if p ≤ 3 then .ok [] true else .fail⟩ "t"
          ⟨"s", none, none, none, 3⟩
        = scrapeProducts ⟨true, fun _ => .ok [] true⟩ "t" ⟨"s", none, none, none, 3⟩ := by
  have h := pagination_bounded_by_maxPages ⟨true, fun _ => .ok [] true⟩ "t"
    ⟨"s", none, none, none, 3⟩
  exact ⟨h.1, h.2 ⟨true, fun p => if p ≤ 3 then .ok [] true else .fail⟩ rfl
    (by intro p h1 h2; simp [h2])⟩

/-- C3: when the cycle for page `k` fails mid-crawl (navigation/click or
extraction throws) after pages `1..k-1` succeeded with a next-page
control present, the driver stops at once and the run returns exactly the
records accumulated from the earlier pages, in page order; the failure
only sets the logged-failure flag — `scrapeProducts` still returns the
accumulator instead of propagating a hard error (the `catch` swallows the
exception and the `finally` closes the browser). -/
theorem midcrawl_failure_keeps_accumulated :
    ∀ (env : CrawlEnv) (now : String) (spec : SearchSpec) (k : Nat)
      (items : Nat → List RawElement),
      env.navOk = true → 1 ≤ k → k ≤ spec.maxPages →
      (∀ p, 1 ≤ p → p < k → env.pages p = .ok (items p) true) →
      env.pages k = .fail →
      scrapeProducts env now spec =
        ⟨((List.range (k - 1)).map
            (fun i => pageExtract now (items (1 + i)) spec)).flatten,
          k - 1, true⟩ := by
  intro env now spec k items hnav hk1 hk2 hok hfail
  unfold scrapeProducts
  rw [hnav]
  simp only [if_true]
  obtain ⟨m, hm⟩ : ∃ m, spec.maxPages = m + 1 := ⟨spec.maxPages - 1, by omega⟩
  rw [hm]
  exact (crawlSteps_fail_trunc env.pages now spec items k m 1 [] (by omega)
    (by omega) hok hfail).trans (by simp)

theorem midcrawl_failure_keeps_accumulated_witness :
    scrapeProducts
        ⟨true, fun p => if p = 1
          then .ok [⟨some "p1", some "T", some "$5", some "60 orders", some "4.5", some "u"⟩] true
          else .fail⟩
        "t" ⟨"s", none, none, some 50, 3⟩ =
      ⟨((List.range 1).map
          (fun i => pageExtract "t"
            ((fun _ => [(⟨some "p1", some "T", some "$5", some "60 orders",
                some "4.5", some "u"⟩ : RawElement)]) (1 + i))
            ⟨"s", none, none, some 50, 3⟩)).flatten,
        1, true⟩ :=
  midcrawl_failure_keeps_accumulated
    ⟨true, fun p => if p = 1
      then .ok [⟨some "p1", some "T", some "$5", some "60 orders", some "4.5", some "u"⟩] true
      else .fail⟩
    "t" ⟨"s", none, none, some 50, 3⟩ 2
    (fun _ => [⟨some "p1", some "T", some "$5", some "60 orders", some "4.5", some "u"⟩])
    rfl (by decide) (by decide)
    (by
      intro p h1 h2
      have hp : p = 1 := by omega
      subst hp
      rfl)
    rfl

/-- C8 fails on the code: the search term is percent-encoded twice — once
explicitly by `encodeURIComponent` and then again by
`URLSearchParams.toString()` — so for the term `"a b"` the built URL
carries `SearchText=a%2520b`, and one standard query decode yields
`"a%20b"`, not the original `"a b"`. -/
theorem searchTerm_not_single_encoded :
    buildSearchURL ⟨"a b", none, none, none, 1⟩
        = "https://www.aliexpress.com/wholesale?SearchText=a%2520b"
    ∧ formUrlDecodeStr "a%2520b" ≠ "a b" :=
  ⟨by decide, by decide⟩

/-- C8 amended: for every spec with an ASCII search term, the `SearchText`
parameter value appended to the URL parameters is the
`encodeURIComponent`-pre-encoded term, the serializer form-url-encodes it
a second time, and decoding the carried value twice — one standard query
decode followed by one percent decode — recovers the original search
term (a single decode suffices only for terms percent-encoding leaves
unchanged). -/
theorem searchTerm_double_decode_roundtrip :
    ∀ (spec : SearchSpec),
      (∀ c ∈ spec.searchTerm.data, c.toNat < 128) →
      (buildParams spec).head?
          = some ("SearchText", encodeURIComponentStr spec.searchTerm)
      ∧ decodeURIComponentStr (formUrlDecodeStr (formUrlEncodeStr
          (encodeURIComponentStr spec.searchTerm))) = spec.searchTerm := by
  intro spec hascii
  constructor
  · rfl
  · show String.mk (decodeURIComponentList (formUrlDecodeList
        ((((spec.searchTerm.data.map encodeURIComponentChar).flatten).map
          formUrlEncodeChar).flatten)))
      = spec.searchTerm
    have hL : ∀ x ∈ (spec.searchTerm.data.map encodeURIComponentChar).flatten,
        x.toNat < 256 := by
      intro x hx
      simp only [List.mem_flatten, List.mem_map] at hx
      obtain ⟨lx, ⟨c, hc, rfl⟩, hxl⟩ := hx
      have := encodeURIComponentChar_toNat_lt c (hascii c hc) x hxl
      omega
    rw [formUrlDecodeList_flatten_encode _ hL]
    rw [decodeURIComponentList_flatten_encode spec.searchTerm.data
      (fun c hc => by have := hascii c hc; omega)]

theorem searchTerm_double_decode_roundtrip_witness :
    (buildParams ⟨"a b", none, none, none, 1⟩).head?
        = some ("SearchText", encodeURIComponentStr "a b")
    ∧ decodeURIComponentStr (formUrlDecodeStr (formUrlEncodeStr
        (encodeURIComponentStr "a b"))) = "a b" :=
  searchTerm_double_decode_roundtrip ⟨"a b", none, none, none, 1⟩ (by decide)

/-- C10: a present-but-zero `minPrice` (resp. `maxPrice`) is falsy in the
`if (minPrice)` guard, so the built URL is identical to the one built with
the field absent — the parameter is omitted entirely. -/
theorem queryBuilder_zero_price_omitted :
    ∀ (term : String) (minP maxP moc : Option Int) (mp : Nat),
      buildSearchURL ⟨term, some 0, maxP, moc, mp⟩
          = buildSearchURL ⟨term, none, maxP, moc, mp⟩
      ∧ buildSearchURL ⟨term, minP, some 0, moc, mp⟩
          = buildSearchURL ⟨term, minP, none, moc, mp⟩ := by
  intro term minP maxP moc mp
  constructor <;> rfl
